import Mathlib

/-!
Verification development for the visionAI4schoolbus detection-to-actuation
pipeline.  The Python sources are shallowly embedded: numeric values (Python
floats holding times, confidences, box coordinates) are modelled as rationals,
Python `int()` as truncation toward zero, Python sets as finite sets of
strings, and fallible computations as `Except`.  External side effects
(MQTT device commands) are modelled by Boolean success oracles, one per
command kind, so every statement is universally quantified over the possible
outcomes of the external world.
-/

namespace VisionAI

/-- Python `str.lower()` restricted to what the code compares (ASCII class
names): lower-case every character. -/
def pyLower (s : String) : String := ⟨s.data.map Char.toLower⟩

/-- Python `int()` applied to a float: truncation toward zero. -/
def pyInt (q : ℚ) : ℤ := if 0 ≤ q then ⌊q⌋ else ⌈q⌉

/-- A detection record as built by `HailoDetector._postprocess_outputs` and
consumed by `SchoolBusDetectionSystem`: `class_name`, `confidence`, and the
bbox `[x1, y1, x2, y2]` split into four named fields. -/
structure Detection where
  className : String
  confidence : ℚ
  x1 : ℚ
  y1 : ℚ
  x2 : ℚ
  y2 : ℚ
deriving DecidableEq

/-- The configuration keys `main.py` reads (with repository defaults
`min_confidence = 0.7`, `min_bus_size = 0.1`, `cooldown_seconds = 30`,
`activation_duration_seconds = 300`). -/
structure MainConfig where
  min_confidence : ℚ
  min_bus_size : ℚ
  cooldown_seconds : ℚ
  activation_duration_seconds : ℚ

/-- `SchoolBusDetectionSystem.is_school_bus_detection` (src/main.py:162-185):
the class name, lower-cased, must be "bus" or "school_bus"; the confidence
must not be below `min_confidence`; and the raw bbox area
`(x2 - x1) * (y2 - y1)` must not be below `min_bus_size`.  Note the source
compares the *pixel* area directly against `min_bus_size` (default 0.1,
commented as "10% of image") without dividing by the frame area. -/
def is_school_bus_detection (cfg : MainConfig) (d : Detection) : Bool :=
  if ¬ (pyLower d.className = "bus" ∨ pyLower d.className = "school_bus") then
    false
  else if d.confidence < cfg.min_confidence then
    false
  else if (d.x2 - d.x1) * (d.y2 - d.y1) < cfg.min_bus_size then
    false
  else
    true

/-- Modelled from the spec: the qualification predicate as the spec states it
(spec.md section 4.3), with the size gate on the *normalized* bbox area, i.e.
bbox area divided by the frame area, compared against `min_size_fraction`.
This definition exists only to be compared with
`is_school_bus_detection`, which is the code's version. -/
def qualifies_spec (cfg : MainConfig) (frameW frameH : ℚ) (d : Detection) : Bool :=
  (decide (pyLower d.className = "bus" ∨ pyLower d.className = "school_bus"))
    && (decide (cfg.min_confidence ≤ d.confidence))
    && (decide (cfg.min_bus_size ≤ ((d.x2 - d.x1) * (d.y2 - d.y1)) / (frameW * frameH)))

/-- `SchoolBusDetectionSystem.process_detections` (src/main.py:137-160).
The loop skips non-qualifying detections and stops at the first qualifying
one (the `break` runs whether or not the cooldown admits it); an accepted
detection sets `last_detection_time` to the current time.  The mutable field
`last_detection_time` is threaded explicitly: the function returns the pair
(school_bus_detected, new last_detection_time). -/
def process_detections (cfg : MainConfig) (detections : List Detection)
    (current_time last_detection_time : ℚ) : Bool × ℚ :=
  match detections.find? (fun d => is_school_bus_detection cfg d) with
  | none => (false, last_detection_time)
  | some _ =>
      if current_time - last_detection_time > cfg.cooldown_seconds then
        (true, current_time)
      else
        (false, last_detection_time)

/-- Device configuration of `HomeAssistantController`: the configured light
and switch entity lists. -/
structure HAConfig where
  lights : List String
  switches : List String

/-- Mutable state of `HomeAssistantController`: the tracked set
`activated_devices` (a Python set of entity ids) and `activation_time`
(a float or `None`). -/
structure HAState where
  activated_devices : Finset String
  activation_time : Option ℚ
deriving DecidableEq

/-- The turn-on loops of `HomeAssistantController.activate_devices`
(src/src/automation/home_assistant.py:44-57): for each device in order, issue
the turn-on command (outcome given by the oracle `cmd`); on success add the
device to the accumulated set and bump `success_count`; on failure just log
and continue with the remaining devices. -/
def activateLoop (cmd : String → Bool) : List String → Finset String → ℕ →
    Finset String × ℕ
  | [], acc, n => (acc, n)
  | device :: rest, acc, n =>
      if cmd device then activateLoop cmd rest (insert device acc) (n + 1)
      else activateLoop cmd rest acc n

/-- `HomeAssistantController.activate_devices`
(src/src/automation/home_assistant.py:36-77): run the turn-on loop over the
lights, then over the switches; set `activation_time` to the current time
(unconditionally, before the success check); return `True` exactly when
`success_count > 0`.  `onLight` and `onSwitch` are the success oracles for
`_turn_on_light` and `_turn_on_switch` (each of those catches its own
exceptions and returns a bool). -/
def activate_devices (cfg : HAConfig) (onLight onSwitch : String → Bool)
    (now : ℚ) (s : HAState) : HAState × Bool :=
  let r1 := activateLoop onLight cfg.lights s.activated_devices 0
  let r2 := activateLoop onSwitch cfg.switches r1.1 r1.2
  (⟨r2.1, some now⟩, decide (r2.2 > 0))

/-- Success of the turn-off command `deactivate_devices` issues for one
tracked device (src/src/automation/home_assistant.py:88-96): a device found
in the lights list gets `_turn_off_light` (oracle `offLight`); otherwise one
found in the switches list gets `_turn_off_switch` (oracle `offSwitch`);
a tracked device in neither list gets no command at all, so no success. -/
def turnOffHit (cfg : HAConfig) (offLight offSwitch : String → Bool)
    (device : String) : Bool :=
  if cfg.lights.contains device then offLight device
  else if cfg.switches.contains device then offSwitch device
  else false

/-- `HomeAssistantController.deactivate_devices`
(src/src/automation/home_assistant.py:79-113): iterate over a copy of
`activated_devices`, removing from the live set exactly the devices whose
turn-off command succeeded (the per-device removal decision depends only on
that device, so iterating the copied set is the same as filtering);
`activation_time` is set to `None` unconditionally; return `True` exactly
when at least one device was deactivated. -/
def deactivate_devices (cfg : HAConfig) (offLight offSwitch : String → Bool)
    (s : HAState) : HAState × Bool :=
  let removed := s.activated_devices.filter
    (fun device => turnOffHit cfg offLight offSwitch device = true)
  (⟨s.activated_devices \ removed, none⟩, decide (removed.card > 0))

/-- `HomeAssistantController.emergency_stop`
(src/src/automation/home_assistant.py:330-346): run `deactivate_devices`,
then clear `activated_devices` and `activation_time` regardless of how many
individual commands succeeded; return the success flag of
`deactivate_devices`. -/
def emergency_stop (cfg : HAConfig) (offLight offSwitch : String → Bool)
    (s : HAState) : HAState × Bool :=
  let r := deactivate_devices cfg offLight offSwitch s
  (⟨∅, none⟩, r.2)

/-- The activation-related mutable state of `SchoolBusDetectionSystem`:
`devices_activated` and `activation_start_time`. -/
structure CtrlState where
  devices_activated : Bool
  activation_start_time : ℚ
deriving DecidableEq

/-- Which Home Assistant call `handle_device_control` made, if any. -/
inductive DeviceAction where
  | activate
  | deactivate
deriving DecidableEq

/-- `SchoolBusDetectionSystem.handle_device_control` (src/main.py:187-204):
if a bus was detected and devices are not activated, call
`ha_controller.activate_devices`, set `devices_activated`, and record
`activation_start_time = now`; otherwise, if devices are activated and
`now - activation_start_time > activation_duration` (strict), call
`ha_controller.deactivate_devices` and clear `devices_activated`
(`activation_start_time` itself is left as is).  Returns the new controller
state, the new Home Assistant state, and which call was made. -/
def handle_device_control (cfg : MainConfig) (hacfg : HAConfig)
    (onLight onSwitch offLight offSwitch : String → Bool)
    (bus_detected : Bool) (now : ℚ) (sys : CtrlState) (ha : HAState) :
    CtrlState × HAState × Option DeviceAction :=
  if bus_detected && !sys.devices_activated then
    let r := activate_devices hacfg onLight onSwitch now ha
    (⟨true, now⟩, r.1, some .activate)
  else if sys.devices_activated then
    if now - sys.activation_start_time > cfg.activation_duration_seconds then
      let r := deactivate_devices hacfg offLight offSwitch ha
      (⟨false, sys.activation_start_time⟩, r.1, some .deactivate)
    else (sys, ha, none)
  else (sys, ha, none)

/-- Detection parameters of `HailoDetector` (src/src/detection/hailo_detector.py:34-37):
`min_confidence`, `nms_threshold`, and the model input resolution. -/
structure DetectorCfg where
  min_confidence : ℚ
  nms_threshold : ℚ
  input_width : ℤ
  input_height : ℤ

/-- `HailoDetector._get_coco_class_names`
(src/src/detection/hailo_detector.py:298-318): the COCO id-to-name mapping,
as a list indexed by class id (the dict keys are exactly 0..79). -/
def coco_class_names : List String :=
  ["person", "bicycle", "car", "motorcycle", "airplane",
   "bus", "train", "truck", "boat", "traffic light",
   "fire hydrant", "stop sign", "parking meter", "bench",
   "bird", "cat", "dog", "horse", "sheep", "cow",
   "elephant", "bear", "zebra", "giraffe", "backpack",
   "umbrella", "handbag", "tie", "suitcase", "frisbee",
   "skis", "snowboard", "sports ball", "kite", "baseball bat",
   "baseball glove", "skateboard", "surfboard", "tennis racket",
   "bottle", "wine glass", "cup", "fork", "knife",
   "spoon", "bowl", "banana", "apple", "sandwich",
   "orange", "broccoli", "carrot", "hot dog", "pizza",
   "donut", "cake", "chair", "couch", "potted plant",
   "bed", "dining table", "toilet", "tv", "laptop",
   "mouse", "remote", "keyboard", "cell phone", "microwave",
   "oven", "toaster", "sink", "refrigerator", "book",
   "clock", "vase", "scissors", "teddy bear", "hair drier",
   "toothbrush"]

/-- `self.class_names.get(class_id, f'class_{class_id}')`. -/
def className_of (class_id : ℕ) : String :=
  coco_class_names.getD class_id ("class_" ++ toString class_id)

/-- Maximum of a list of rationals (`numpy` maximum over the class scores;
0 on the empty list, which the code never reaches because `np.argmax` raises
there first). -/
def listMax : List ℚ → ℚ
  | [] => 0
  | [x] => x
  | x :: y :: t => max x (listMax (y :: t))

/-- `np.argmax`: the first index attaining the maximum. -/
def argmaxIdx : List ℚ → ℕ
  | [] => 0
  | [_] => 0
  | x :: y :: t => if listMax (y :: t) > x then argmaxIdx (y :: t) + 1 else 0

/-- `max(lo, min(v, hi))`, the clamping pattern of
src/src/detection/hailo_detector.py:215-218. -/
def clamp (v lo hi : ℤ) : ℤ := max lo (min v hi)

/-- The loop body of `HailoDetector._postprocess_outputs`
(src/src/detection/hailo_detector.py:191-227) on a single candidate row
`[x_center, y_center, width, height, objectness, class scores...]`:
skip rows shorter than 5 entries (`.ok none`); `np.argmax` on an empty
class-score slice raises `ValueError` (`.error`, caught by `detect`);
otherwise take final confidence = objectness times the best class score,
discard when below `min_confidence` (`.ok none`), and else scale the
center/size box to original-frame corner coordinates with `int()` truncation
and clamp each coordinate into the frame. -/
def postprocessRow (cfg : DetectorCfg) (original_width original_height : ℤ)
    (row : List ℚ) : Except String (Option Detection) :=
  if row.length < 5 then .ok none
  else
    let scale_x : ℚ := (original_width : ℚ) / (cfg.input_width : ℚ)
    let scale_y : ℚ := (original_height : ℚ) / (cfg.input_height : ℚ)
    let x_center := row.getD 0 0
    let y_center := row.getD 1 0
    let width := row.getD 2 0
    let height := row.getD 3 0
    let confidence := row.getD 4 0
    let class_scores := row.drop 5
    if class_scores = [] then
      .error "attempt to get argmax of an empty sequence"
    else
      let class_id := argmaxIdx class_scores
      let class_confidence := class_scores.getD class_id 0
      let final_confidence := confidence * class_confidence
      if final_confidence ≥ cfg.min_confidence then
        let xa := clamp (pyInt ((x_center - width / 2) * scale_x)) 0 (original_width - 1)
        let ya := clamp (pyInt ((y_center - height / 2) * scale_y)) 0 (original_height - 1)
        let xb := clamp (pyInt ((x_center + width / 2) * scale_x)) 0 (original_width - 1)
        let yb := clamp (pyInt ((y_center + height / 2) * scale_y)) 0 (original_height - 1)
        .ok (some ⟨className_of class_id, final_confidence,
                   (xa : ℚ), (ya : ℚ), (xb : ℚ), (yb : ℚ)⟩)
      else .ok none

/-- The candidate loop of `_postprocess_outputs`: process the rows in order,
collecting the kept detections; the first raised error aborts (and is caught
by `detect`). -/
def postprocessRows (cfg : DetectorCfg) (original_width original_height : ℤ) :
    List (List ℚ) → Except String (List Detection)
  | [] => .ok []
  | row :: rest => do
      let d? ← postprocessRow cfg original_width original_height row
      let ds ← postprocessRows cfg original_width original_height rest
      match d? with
      | some d => .ok (d :: ds)
      | none => .ok ds

/-- Intersection-over-union of two detections' boxes, the overlap measure the
NMS duplicate threshold applies to. -/
def iou (a b : Detection) : ℚ :=
  let ix1 := max a.x1 b.x1
  let iy1 := max a.y1 b.y1
  let ix2 := min a.x2 b.x2
  let iy2 := min a.y2 b.y2
  let inter := max 0 (ix2 - ix1) * max 0 (iy2 - iy1)
  let areaA := (a.x2 - a.x1) * (a.y2 - a.y1)
  let areaB := (b.x2 - b.x1) * (b.y2 - b.y1)
  inter / (areaA + areaB - inter)

/-- Stable insertion of a detection into a confidence-descending list. -/
def insertByConfDesc (d : Detection) : List Detection → List Detection
  | [] => [d]
  | x :: t => if d.confidence > x.confidence then d :: x :: t
              else x :: insertByConfDesc d t

/-- Stable sort by confidence, descending. -/
def sortByConfDesc : List Detection → List Detection
  | [] => []
  | d :: t => insertByConfDesc d (sortByConfDesc t)

/-- Greedy suppression pass: keep the highest-confidence remaining candidate,
drop every later candidate whose IoU with it exceeds the threshold, repeat. -/
def nmsGo (thr : ℚ) : List Detection → List Detection
  | [] => []
  | h :: t => h :: nmsGo thr (t.filter fun d => iou h d ≤ thr)
termination_by l => l.length
decreasing_by
  simp only [List.length_cons]
  exact Nat.lt_succ_of_le (List.length_filter_le _ _)

/-- Modelled from the spec: `HailoDetector._apply_nms`
(src/src/detection/hailo_detector.py:234-262) delegates the suppression to
`cv2.dnn.NMSBoxes`, an external OpenCV routine whose code is not in this
repository; the greedy algorithm is taken from the spec's description
(spec.md section 4.2 step 4): sort candidates by confidence descending,
iteratively keep the highest remaining and discard any not-yet-discarded
candidate whose IoU with the kept one exceeds `nms_threshold`. -/
def apply_nms (thr : ℚ) (detections : List Detection) : List Detection :=
  nmsGo thr (sortByConfDesc detections)

/-- `HailoDetector._postprocess_outputs` applied to the raw output tensors
(each tensor a batch of candidate rows): empty output list yields no
detections; `output = outputs[0][0]` raises `IndexError` when the first
tensor has no batch entries; otherwise process the rows of the first batch
and apply NMS. -/
def postprocess_outputs (cfg : DetectorCfg) (original_width original_height : ℤ) :
    List (List (List (List ℚ))) → Except String (List Detection)
  | [] => .ok []
  | tensor :: _ =>
      match tensor with
      | [] => .error "index 0 is out of bounds"
      | batch0 :: _ => do
          let ds ← postprocessRows cfg original_width original_height batch0
          .ok (apply_nms cfg.nms_threshold ds)

/-- `HailoDetector.detect` (src/src/detection/hailo_detector.py:127-154).
When the Hailo runtime is unavailable the OpenCV fallback (a placeholder)
returns no detections.  Otherwise preprocessing + inference is modelled by
its result `infer_result` (an `Except`, since the hardware call can raise),
postprocessing runs on it, and any exception raised anywhere in the `try`
block is caught, yielding the empty list.  The function is total: it never
propagates an error. -/
def detect (hailo_ready : Bool) (cfg : DetectorCfg)
    (original_width original_height : ℤ)
    (infer_result : Except String (List (List (List (List ℚ))))) :
    List Detection :=
  if !hailo_ready then []
  else
    match (do
        let outputs ← infer_result
        postprocess_outputs cfg original_width original_height outputs) with
    | .error _ => []
    | .ok ds => ds

/-! ## Helper lemmas -/

/-- Evaluation of the lower-casing of the literal "bus". -/
theorem pyLower_bus : pyLower "bus" = "bus" := by decide

/-- Evaluation of the lower-casing of the literal "school_bus". -/
theorem pyLower_school_bus : pyLower "school_bus" = "school_bus" := by decide

/-- The turn-on loop visits every device: the accumulated set gains exactly
the successful devices of the whole list, and the counter gains their
number. -/
theorem activateLoop_eq (cmd : String → Bool) (devs : List String)
    (acc : Finset String) (n : ℕ) :
    activateLoop cmd devs acc n
      = (acc ∪ (devs.filter cmd).toFinset, n + (devs.filter cmd).length) := by
  induction devs generalizing acc n with
  | nil => simp [activateLoop]
  | cons dev rest ih =>
    by_cases h : cmd dev
    · simp only [activateLoop, h, if_pos, List.filter_cons_of_pos,
        List.toFinset_cons, ih, Finset.insert_union, Finset.union_insert,
        List.length_cons]
      exact Prod.ext rfl (by omega)
    · simp only [activateLoop, h, Bool.false_eq_true, if_neg,
        List.filter_cons_of_neg, ih, not_false_iff]

/-- Membership after inserting into a confidence-sorted list. -/
theorem mem_insertByConfDesc {d x : Detection} {l : List Detection} :
    x ∈ insertByConfDesc d l ↔ x = d ∨ x ∈ l := by
  induction l with
  | nil => simp [insertByConfDesc]
  | cons y t ih =>
    by_cases h : d.confidence > y.confidence
    · simp [insertByConfDesc, h]
    · simp [insertByConfDesc, h, ih]
      tauto

/-- Sorting by confidence preserves membership. -/
theorem mem_sortByConfDesc {x : Detection} {l : List Detection} :
    x ∈ sortByConfDesc l ↔ x ∈ l := by
  induction l with
  | nil => simp [sortByConfDesc]
  | cons y t ih => simp [sortByConfDesc, mem_insertByConfDesc, ih]

/-- Every detection kept by the greedy pass is one of its candidates. -/
theorem nmsGo_subset (thr : ℚ) (l : List Detection) :
    ∀ d ∈ nmsGo thr l, d ∈ l := by
  induction l using nmsGo.induct thr with
  | case1 => intro d hd; rw [nmsGo] at hd; exact absurd hd (List.not_mem_nil d)
  | case2 h t ih =>
    intro d hd
    rw [nmsGo] at hd
    rcases List.mem_cons.mp hd with h1 | h1
    · exact List.mem_cons.mpr (Or.inl h1)
    · exact List.mem_cons.mpr (Or.inr (List.mem_of_mem_filter (ih d h1)))

/-- Any two detections kept by the greedy pass overlap by at most the
threshold (in keeping order). -/
theorem nmsGo_pairwise (thr : ℚ) (l : List Detection) :
    (nmsGo thr l).Pairwise (fun a b => iou a b ≤ thr) := by
  induction l using nmsGo.induct thr with
  | case1 => rw [nmsGo]; exact List.Pairwise.nil
  | case2 h t ih =>
    rw [nmsGo]
    refine List.Pairwise.cons ?_ ih
    intro b hb
    have hmem := nmsGo_subset thr _ b hb
    exact of_decide_eq_true (List.mem_filter.mp hmem).2

/-- Intersection-over-union is symmetric. -/
theorem iou_comm (a b : Detection) : iou a b = iou b a := by
  unfold iou
  dsimp only
  rw [max_comm a.x1, max_comm a.y1, min_comm a.x2, min_comm a.y2,
    add_comm ((a.x2 - a.x1) * (a.y2 - a.y1))]

/-- The score selected by argmax is one of the scores. -/
theorem getD_argmaxIdx_mem : ∀ (l : List ℚ), l ≠ [] → l.getD (argmaxIdx l) 0 ∈ l := by
  intro l
  induction l with
  | nil => intro h; exact absurd rfl h
  | cons x t ih =>
    intro _
    cases t with
    | nil => simp [argmaxIdx]
    | cons y s =>
      rw [argmaxIdx]
      by_cases h : listMax (y :: s) > x
      · rw [if_pos h]
        rw [List.getD_cons_succ]
        exact List.mem_cons.mpr (Or.inr (ih (by simp)))
      · rw [if_neg h]
        simp

/-- The objectness entry of a row of length at least 5 sits in the slice the
score-bounds hypothesis quantifies over. -/
theorem getD_four_mem_drop (row : List ℚ) (h : 5 ≤ row.length) :
    row.getD 4 0 ∈ row.drop 4 := by
  have hne : row.drop 4 ≠ [] := by
    intro hcon
    have := List.drop_eq_nil_iff.mp hcon
    omega
  obtain ⟨a, t, hat⟩ := List.exists_cons_of_ne_nil hne
  have h4 : row[4]? = some a := by
    have := List.getElem?_drop row 4 0
    rw [hat] at this
    simpa using this.symm
  rw [List.getD_eq_getElem?_getD, h4, hat]
  simp

/-- Bounds transferred through `clamp` into the frame interval, as
rationals. -/
theorem clamp_bounds (v W : ℤ) (hW : 1 ≤ W) :
    (0 : ℚ) ≤ ((clamp v 0 (W - 1) : ℤ) : ℚ)
      ∧ ((clamp v 0 (W - 1) : ℤ) : ℚ) ≤ (W : ℚ) - 1 := by
  have h1 : (0 : ℤ) ≤ clamp v 0 (W - 1) := le_max_left _ _
  have h2 : clamp v 0 (W - 1) ≤ W - 1 := by
    apply max_le
    · omega
    · exact min_le_right _ _
  constructor
  · exact_mod_cast h1
  · have : ((clamp v 0 (W - 1) : ℤ) : ℚ) ≤ ((W - 1 : ℤ) : ℚ) := by exact_mod_cast h2
    push_cast at this
    linarith

/-- What a kept row guarantees about the detection built from it: confidence
at least `min_confidence`, confidence within [0,1] whenever the row's
objectness and class scores are within [0,1], box coordinates clamped into
the frame, and confidence literally the product of the objectness entry with
the argmax class score. -/
theorem postprocessRow_props (cfg : DetectorCfg) (W H : ℤ) (row : List ℚ)
    (d : Detection) (hW : 1 ≤ W) (hH : 1 ≤ H)
    (hb : ∀ q ∈ row.drop 4, 0 ≤ q ∧ q ≤ 1)
    (hok : postprocessRow cfg W H row = .ok (some d)) :
    cfg.min_confidence ≤ d.confidence ∧ 0 ≤ d.confidence ∧ d.confidence ≤ 1
    ∧ ((0 : ℚ) ≤ d.x1 ∧ d.x1 ≤ (W : ℚ) - 1) ∧ ((0 : ℚ) ≤ d.x2 ∧ d.x2 ≤ (W : ℚ) - 1)
    ∧ ((0 : ℚ) ≤ d.y1 ∧ d.y1 ≤ (H : ℚ) - 1) ∧ ((0 : ℚ) ≤ d.y2 ∧ d.y2 ≤ (H : ℚ) - 1)
    ∧ d.confidence = row.getD 4 0 * (row.drop 5).getD (argmaxIdx (row.drop 5)) 0 := by
  unfold postprocessRow at hok
  by_cases hlen : row.length < 5
  · rw [if_pos hlen] at hok
    exact absurd (Option.some_ne_none d (Except.ok.inj hok).symm) (by simp)
  · rw [if_neg hlen] at hok
    by_cases hsc : row.drop 5 = []
    · rw [if_pos hsc] at hok
      exact absurd hok (by simp)
    · rw [if_neg hsc] at hok
      by_cases hconf : row.getD 4 0 * (row.drop 5).getD (argmaxIdx (row.drop 5)) 0
          ≥ cfg.min_confidence
      · rw [if_pos hconf] at hok
        have hd := (Option.some.inj (Except.ok.inj hok))
        have hobj : 0 ≤ row.getD 4 0 ∧ row.getD 4 0 ≤ 1 :=
          hb _ (getD_four_mem_drop row (by omega))
        have hclsmem : (row.drop 5).getD (argmaxIdx (row.drop 5)) 0 ∈ row.drop 4 := by
          have hmem := getD_argmaxIdx_mem (row.drop 5) hsc
          have hsub : row.drop 5 ⊆ row.drop 4 := by
            have : List.drop 1 (List.drop 4 row) = List.drop 5 row := by
              rw [List.drop_drop]
            rw [← this]
            exact List.drop_subset 1 _
          exact hsub hmem
        have hcls := hb _ hclsmem
        subst hd
        refine ⟨hconf, mul_nonneg hobj.1 hcls.1,
          mul_le_one₀ hobj.2 hcls.1 hcls.2, ?_, ?_, ?_, ?_, rfl⟩
        · exact clamp_bounds _ W hW
        · exact clamp_bounds _ W hW
        · exact clamp_bounds _ H hH
        · exact clamp_bounds _ H hH
      · rw [if_neg hconf] at hok
        exact absurd (Option.some_ne_none d (Except.ok.inj hok).symm) (by simp)

/-- Lifts `postprocessRow_props` over the row loop: every collected detection
satisfies the per-row guarantees for some source row. -/
theorem postprocessRows_props (cfg : DetectorCfg) (W H : ℤ)
    (rows : List (List ℚ)) (ds : List Detection) (hW : 1 ≤ W) (hH : 1 ≤ H)
    (hb : ∀ row ∈ rows, ∀ q ∈ row.drop 4, 0 ≤ q ∧ q ≤ 1)
    (hok : postprocessRows cfg W H rows = .ok ds) :
    ∀ d ∈ ds,
      cfg.min_confidence ≤ d.confidence ∧ 0 ≤ d.confidence ∧ d.confidence ≤ 1
      ∧ ((0 : ℚ) ≤ d.x1 ∧ d.x1 ≤ (W : ℚ) - 1) ∧ ((0 : ℚ) ≤ d.x2 ∧ d.x2 ≤ (W : ℚ) - 1)
      ∧ ((0 : ℚ) ≤ d.y1 ∧ d.y1 ≤ (H : ℚ) - 1) ∧ ((0 : ℚ) ≤ d.y2 ∧ d.y2 ≤ (H : ℚ) - 1)
      ∧ ∃ row ∈ rows,
          d.confidence = row.getD 4 0 * (row.drop 5).getD (argmaxIdx (row.drop 5)) 0 := by
  induction rows generalizing ds with
  | nil =>
    rw [postprocessRows] at hok
    intro d hd
    rw [← Except.ok.inj hok] at hd
    exact absurd hd (List.not_mem_nil d)
  | cons row rest ih =>
    rw [postprocessRows] at hok
    cases hrow : postprocessRow cfg W H row with
    | error e =>
      rw [hrow] at hok
      exact absurd hok (fun h => Except.noConfusion h)
    | ok d? =>
      rw [hrow] at hok
      cases hrest : postprocessRows cfg W H rest with
      | error e =>
        rw [hrest] at hok
        cases d? with
        | some d0 => exact absurd hok (fun h => Except.noConfusion h)
        | none => exact absurd hok (fun h => Except.noConfusion h)
      | ok ds' =>
        rw [hrest] at hok
        have hbrest : ∀ r ∈ rest, ∀ q ∈ r.drop 4, 0 ≤ q ∧ q ≤ 1 := by
          intro r hr
          exact hb r (List.mem_cons.mpr (Or.inr hr))
        have htail := ih ds' hbrest hrest
        intro d hd
        cases d? with
        | some d0 =>
          have hds : d0 :: ds' = ds := Except.ok.inj hok
          rw [← hds] at hd
          rcases List.mem_cons.mp hd with h1 | h1
          · subst h1
            have hp := postprocessRow_props cfg W H row d hW hH
              (hb row (List.mem_cons.mpr (Or.inl rfl))) hrow
            exact ⟨hp.1, hp.2.1, hp.2.2.1, hp.2.2.2.1, hp.2.2.2.2.1,
              hp.2.2.2.2.2.1, hp.2.2.2.2.2.2.1,
              row, List.mem_cons.mpr (Or.inl rfl), hp.2.2.2.2.2.2.2⟩
          · have hp := htail d h1
            exact ⟨hp.1, hp.2.1, hp.2.2.1, hp.2.2.2.1, hp.2.2.2.2.1,
              hp.2.2.2.2.2.1, hp.2.2.2.2.2.2.1, by
                obtain ⟨r, hr, he⟩ := hp.2.2.2.2.2.2.2
                exact ⟨r, List.mem_cons.mpr (Or.inr hr), he⟩⟩
        | none =>
          have hds : ds' = ds := Except.ok.inj hok
          rw [← hds] at hd
          have hp := htail d hd
          exact ⟨hp.1, hp.2.1, hp.2.2.1, hp.2.2.2.1, hp.2.2.2.2.1,
            hp.2.2.2.2.2.1, hp.2.2.2.2.2.2.1, by
              obtain ⟨r, hr, he⟩ := hp.2.2.2.2.2.2.2
              exact ⟨r, List.mem_cons.mpr (Or.inr hr), he⟩⟩

/-! ## Claim theorems -/

/-- Claim C1.  The claim says the size gate compares the *normalized* bbox
area (bbox area divided by frame area) against the minimum size fraction, so
a bus detection with a tiny box must be rejected.  The code
(`is_school_bus_detection`) compares the raw pixel area against the fraction
`min_bus_size` — contradicting its own comment that the threshold is "10% of
image".  Concretely: class "bus", confidence 0.95, bbox [0,0,10,10] in a
1920x1080 frame, thresholds 0.7 and 0.1.  The pixel area 100 passes the
code's gate, while the normalized area 100/2073600 is far below 0.1, so the
spec's predicate (`qualifies_spec`) rejects. -/
theorem C1_size_gate_not_normalized :
    is_school_bus_detection ⟨7/10, 1/10, 30, 300⟩ ⟨"bus", 95/100, 0, 0, 10, 10⟩ = true
    ∧ qualifies_spec ⟨7/10, 1/10, 30, 300⟩ 1920 1080 ⟨"bus", 95/100, 0, 0, 10, 10⟩ = false := by
  constructor
  · rw [is_school_bus_detection]
    norm_num [pyLower_bus]
  · rw [qualifies_spec]
    norm_num [pyLower_bus]

/-- Claim C2.  Cooldown debounce in
`SchoolBusDetectionSystem.process_detections`: when the detection list
contains a qualifying detection (the loop stops at the first one), the tick
is accepted exactly when `now - last_detection_time > cooldown_seconds`;
acceptance updates `last_detection_time` to `now`, and a cooldown rejection
leaves it untouched and reports no event. -/
theorem C2_cooldown_debounce (cfg : MainConfig) (detections : List Detection)
    (d : Detection) (now last : ℚ)
    (hfound : detections.find? (fun x => is_school_bus_detection cfg x) = some d) :
    ((process_detections cfg detections now last).1 = true
        ↔ now - last > cfg.cooldown_seconds)
    ∧ (now - last > cfg.cooldown_seconds →
        (process_detections cfg detections now last).2 = now)
    ∧ (¬ now - last > cfg.cooldown_seconds →
        (process_detections cfg detections now last).2 = last) := by
  unfold process_detections
  rw [hfound]
  by_cases h : now - last > cfg.cooldown_seconds <;> simp [h]

/-- Witness for C2, which is also the spec's cooldown scenario: qualifying
detections at t = 0, 5 and 35 with cooldown 30 (starting from a
last-accepted time more than a cooldown in the past, as with the epoch
times the code actually feeds in) give accepted, rejected, accepted — two
events in total, and the t = 5 rejection leaves the accepted time at 0. -/
theorem C2_cooldown_debounce_witness :
    (process_detections ⟨7/10, 1/10, 30, 300⟩
        [⟨"bus", 95/100, 0, 0, 100, 100⟩] 0 (-31)).1 = true
    ∧ (process_detections ⟨7/10, 1/10, 30, 300⟩
        [⟨"bus", 95/100, 0, 0, 100, 100⟩] 0 (-31)).2 = 0
    ∧ (process_detections ⟨7/10, 1/10, 30, 300⟩
        [⟨"bus", 95/100, 0, 0, 100, 100⟩] 5 0).1 = false
    ∧ (process_detections ⟨7/10, 1/10, 30, 300⟩
        [⟨"bus", 95/100, 0, 0, 100, 100⟩] 5 0).2 = 0
    ∧ (process_detections ⟨7/10, 1/10, 30, 300⟩
        [⟨"bus", 95/100, 0, 0, 100, 100⟩] 35 0).1 = true := by
  have hq : is_school_bus_detection ⟨7/10, 1/10, 30, 300⟩
      ⟨"bus", 95/100, 0, 0, 100, 100⟩ = true := by
    rw [is_school_bus_detection]
    norm_num [pyLower_bus]
  have hfound : ([⟨"bus", 95/100, 0, 0, 100, 100⟩] : List Detection).find?
      (fun x => is_school_bus_detection ⟨7/10, 1/10, 30, 300⟩ x)
      = some ⟨"bus", 95/100, 0, 0, 100, 100⟩ :=
    List.find?_cons_of_pos _ hq
  have h1 := C2_cooldown_debounce ⟨7/10, 1/10, 30, 300⟩ _ _ 0 (-31) hfound
  have h2 := C2_cooldown_debounce ⟨7/10, 1/10, 30, 300⟩ _ _ 5 0 hfound
  have h3 := C2_cooldown_debounce ⟨7/10, 1/10, 30, 300⟩ _ _ 35 0 hfound
  refine ⟨h1.1.mpr (by norm_num), h1.2.1 (by norm_num), ?_, h2.2.2 (by norm_num), ?_⟩
  · have := h2.1
    rw [show ((5 : ℚ) - 0 > 30) = False by norm_num] at this
    simpa using this
  · exact h3.1.mpr (by norm_num)

/-- Claim C3, counterexample.  The claim says the controller deactivates as
soon as the elapsed time is greater than *or equal to* `activation_duration`
— in the scenario, Active at t = 0 with duration 300 becomes Idle at exactly
t = 300.  `handle_device_control` uses a strict comparison, so at t = 300
(elapsed exactly 300) it stays Active and makes no Home Assistant call. -/
theorem C3_boundary_counterexample :
    ((handle_device_control ⟨7/10, 1/10, 30, 300⟩ ⟨[], []⟩
        (fun _ => true) (fun _ => true) (fun _ => true) (fun _ => true)
        false 300 ⟨true, 0⟩ ⟨∅, none⟩).1.devices_activated = true)
    ∧ ((handle_device_control ⟨7/10, 1/10, 30, 300⟩ ⟨[], []⟩
        (fun _ => true) (fun _ => true) (fun _ => true) (fun _ => true)
        false 300 ⟨true, 0⟩ ⟨∅, none⟩).2.2 = none) := by
  rw [handle_device_control]
  norm_num

/-- Claim C3, amended: the controller transitions Active to Idle when the
elapsed time since `activation_start_time` is *strictly greater* than
`activation_duration_seconds` (at elapsed time exactly equal it stays Active
for one more tick); on that transition it invokes `deactivate_devices`,
which attempts a turn-off per tracked device best-effort (a device stays
tracked exactly when its command did not succeed) and clears the controller's
`activation_time`. -/
theorem C3_deactivation_after_timeout (cfg : MainConfig) (hacfg : HAConfig)
    (onLight onSwitch offLight offSwitch : String → Bool) (bus_detected : Bool)
    (now : ℚ) (sys : CtrlState) (ha : HAState)
    (hactive : sys.devices_activated = true)
    (htimeout : now - sys.activation_start_time > cfg.activation_duration_seconds) :
    ((handle_device_control cfg hacfg onLight onSwitch offLight offSwitch
        bus_detected now sys ha).1.devices_activated = false)
    ∧ ((handle_device_control cfg hacfg onLight onSwitch offLight offSwitch
        bus_detected now sys ha).2.2 = some DeviceAction.deactivate)
    ∧ ((handle_device_control cfg hacfg onLight onSwitch offLight offSwitch
        bus_detected now sys ha).2.1.activation_time = none)
    ∧ (∀ device, device ∈ (handle_device_control cfg hacfg onLight onSwitch
        offLight offSwitch bus_detected now sys ha).2.1.activated_devices
        ↔ device ∈ ha.activated_devices
          ∧ ¬ turnOffHit hacfg offLight offSwitch device = true) := by
  rw [handle_device_control]
  simp only [hactive, Bool.not_true, Bool.and_false, Bool.false_eq_true,
    if_neg, if_pos, htimeout, not_false_iff, ite_true]
  refine ⟨trivial, trivial, rfl, ?_⟩
  intro device
  simp [deactivate_devices, Finset.mem_sdiff, Finset.mem_filter]
  tauto

/-- Witness for C3 (amended): Active since t = 0 with duration 300, a tick at
t = 301 with one tracked light whose turn-off command fails: the controller
goes Idle, the Home Assistant activation time is cleared, and the failed
device stays tracked. -/
theorem C3_deactivation_after_timeout_witness :
    ((handle_device_control ⟨7/10, 1/10, 30, 300⟩ ⟨["light.porch"], []⟩
        (fun _ => true) (fun _ => true) (fun _ => false) (fun _ => false)
        true 301 ⟨true, 0⟩ ⟨{"light.porch"}, some 0⟩).1.devices_activated = false)
    ∧ ((handle_device_control ⟨7/10, 1/10, 30, 300⟩ ⟨["light.porch"], []⟩
        (fun _ => true) (fun _ => true) (fun _ => false) (fun _ => false)
        true 301 ⟨true, 0⟩ ⟨{"light.porch"}, some 0⟩).2.1.activation_time = none)
    ∧ ("light.porch" ∈ (handle_device_control ⟨7/10, 1/10, 30, 300⟩
        ⟨["light.porch"], []⟩
        (fun _ => true) (fun _ => true) (fun _ => false) (fun _ => false)
        true 301 ⟨true, 0⟩ ⟨{"light.porch"}, some 0⟩).2.1.activated_devices) := by
  have h := C3_deactivation_after_timeout ⟨7/10, 1/10, 30, 300⟩ ⟨["light.porch"], []⟩
    (fun _ => true) (fun _ => true) (fun _ => false) (fun _ => false)
    true 301 ⟨true, 0⟩ ⟨{"light.porch"}, some 0⟩ rfl (by norm_num)
  refine ⟨h.1, h.2.2.1, (h.2.2.2 "light.porch").mpr ⟨by simp, ?_⟩⟩
  simp [turnOffHit]

/-- Claim C4, counterexample.  The claim says a further qualifying event
while Active leaves the Active state unchanged, for *every* Active state.
But when the event arrives after the activation window already elapsed
(Active since t = 0, duration 300, event at t = 301), the timeout branch of
`handle_device_control` still fires in that same call and the state flips to
Idle. -/
theorem C4_expired_event_counterexample :
    (handle_device_control ⟨7/10, 1/10, 30, 300⟩ ⟨[], []⟩
        (fun _ => true) (fun _ => true) (fun _ => true) (fun _ => true)
        true 301 ⟨true, 0⟩ ⟨∅, none⟩).1.devices_activated = false := by
  rw [handle_device_control]
  norm_num [deactivate_devices]

/-- Claim C4, amended: while Active, a further qualifying event never resets
or extends `activation_start_time` (it is preserved by the call whatever the
elapsed time), and as long as the deactivation timeout has not fired
(elapsed ≤ `activation_duration_seconds`) the whole call is a no-op: same
controller state, same Home Assistant state, no device command. -/
theorem C4_no_extension_while_active (cfg : MainConfig) (hacfg : HAConfig)
    (onLight onSwitch offLight offSwitch : String → Bool) (now : ℚ)
    (sys : CtrlState) (ha : HAState)
    (hactive : sys.devices_activated = true) :
    ((handle_device_control cfg hacfg onLight onSwitch offLight offSwitch
        true now sys ha).1.activation_start_time = sys.activation_start_time)
    ∧ (¬ now - sys.activation_start_time > cfg.activation_duration_seconds →
        handle_device_control cfg hacfg onLight onSwitch offLight offSwitch
          true now sys ha = (sys, ha, none)) := by
  rw [handle_device_control]
  simp only [hactive, Bool.not_true, Bool.and_false, Bool.false_eq_true,
    if_neg, not_false_iff, ite_true]
  constructor
  · by_cases h : now - sys.activation_start_time > cfg.activation_duration_seconds
    · simp [h]
    · simp [h]
  · intro h
    simp [h]

/-- Witness for C4 (amended): Active since t = 0, a qualifying event at
t = 100 with duration 300 changes nothing at all. -/
theorem C4_no_extension_while_active_witness :
    handle_device_control ⟨7/10, 1/10, 30, 300⟩ ⟨["light.porch"], []⟩
        (fun _ => true) (fun _ => true) (fun _ => true) (fun _ => true)
        true 100 ⟨true, 0⟩ ⟨{"light.porch"}, some 0⟩
      = (⟨true, 0⟩, ⟨{"light.porch"}, some 0⟩, none) :=
  (C4_no_extension_while_active ⟨7/10, 1/10, 30, 300⟩ ⟨["light.porch"], []⟩
    (fun _ => true) (fun _ => true) (fun _ => true) (fun _ => true)
    100 ⟨true, 0⟩ ⟨{"light.porch"}, some 0⟩ rfl).2 (by norm_num)

/-- Claim C6.  Non-maximum-suppression postcondition: the kept list is
pairwise non-overlapping beyond the threshold (in both orders, IoU being
symmetric), and every kept detection is one of the input detections. -/
theorem C6_nms_postcondition (thr : ℚ) (detections : List Detection) :
    (apply_nms thr detections).Pairwise
      (fun a b => iou a b ≤ thr ∧ iou b a ≤ thr)
    ∧ ∀ d ∈ apply_nms thr detections, d ∈ detections := by
  constructor
  · exact (nmsGo_pairwise thr _).imp (fun h => ⟨h, by rwa [iou_comm]⟩)
  · intro d hd
    exact mem_sortByConfDesc.mp (nmsGo_subset thr _ d hd)

/-- Claim C7.  Error containment in `HailoDetector.detect`: whenever the
inference-plus-postprocessing pipeline raises (an `Except.error` anywhere in
the try block), `detect` returns the empty list instead of propagating; and
being a total function into `List Detection` it never raises at all. -/
theorem C7_detect_error_containment (hailo_ready : Bool) (cfg : DetectorCfg)
    (original_width original_height : ℤ)
    (infer_result : Except String (List (List (List (List ℚ)))))
    (herr : ∃ e, (do
        let outputs ← infer_result
        postprocess_outputs cfg original_width original_height outputs)
      = Except.error e) :
    detect hailo_ready cfg original_width original_height infer_result = [] := by
  obtain ⟨e, he⟩ := herr
  cases hailo_ready with
  | false => rfl
  | true => simp [detect, he]

/-- Witness for C7: a failing inference call yields the empty detection
list. -/
theorem C7_detect_error_containment_witness :
    detect true ⟨7/10, 45/100, 640, 640⟩ 1920 1080
      (.error "inference failed") = [] :=
  C7_detect_error_containment true ⟨7/10, 45/100, 640, 640⟩ 1920 1080
    (.error "inference failed") ⟨"inference failed", rfl⟩

/-- A device list has a successful filtered entry exactly when some listed
device's command succeeds. -/
theorem filter_length_pos_iff (p : String → Bool) (l : List String) :
    0 < (l.filter p).length ↔ ∃ x ∈ l, p x = true := by
  rw [List.length_pos]
  constructor
  · intro h
    rcases List.exists_cons_of_ne_nil h with ⟨a, t, hat⟩
    have ha : a ∈ l.filter p := by rw [hat]; exact List.mem_cons_self a t
    exact ⟨a, List.mem_of_mem_filter ha, (List.mem_filter.mp ha).2⟩
  · rintro ⟨x, hx, hpx⟩ hnil
    have hmem : x ∈ l.filter p := List.mem_filter.mpr ⟨hx, hpx⟩
    rw [hnil] at hmem
    exact absurd hmem (List.not_mem_nil x)

/-- Claim C8.  Best-effort activation: `activate_devices` attempts the
turn-on command of every configured light and switch whatever the outcomes
of earlier commands (the resulting tracked set is the old set united with
exactly the successful devices of the full lists), and reports success
exactly when at least one command succeeded; with every command failing it
reports failure but still returns (no exception escapes). -/
theorem C8_best_effort_activation (cfg : HAConfig)
    (onLight onSwitch : String → Bool) (now : ℚ) (s : HAState) :
    ((activate_devices cfg onLight onSwitch now s).1.activated_devices
        = s.activated_devices ∪ (cfg.lights.filter onLight).toFinset
            ∪ (cfg.switches.filter onSwitch).toFinset)
    ∧ ((activate_devices cfg onLight onSwitch now s).2 = true
        ↔ (∃ d ∈ cfg.lights, onLight d = true) ∨ (∃ d ∈ cfg.switches, onSwitch d = true))
    ∧ (activate_devices cfg onLight onSwitch now s).1.activation_time = some now := by
  refine ⟨?_, ?_, rfl⟩
  · simp [activate_devices, activateLoop_eq]
  · simp only [activate_devices, activateLoop_eq, decide_eq_true_eq]
    rw [← filter_length_pos_iff onLight cfg.lights,
      ← filter_length_pos_iff onSwitch cfg.switches]
    omega

/-- Claim C10.  Normal deactivation is per-device atomic: a device stays in
the tracked set exactly when it was tracked and its turn-off command did not
succeed (devices outside the configured lists get no command and therefore
stay), while `activation_time` is cleared unconditionally; `emergency_stop`
instead empties the tracked set and clears `activation_time` no matter how
many (possibly zero) individual commands succeeded. -/
theorem C10_deactivate_vs_emergency_stop (cfg : HAConfig)
    (offLight offSwitch : String → Bool) (s : HAState) :
    (∀ device, device ∈ (deactivate_devices cfg offLight offSwitch s).1.activated_devices
        ↔ device ∈ s.activated_devices
          ∧ ¬ turnOffHit cfg offLight offSwitch device = true)
    ∧ (deactivate_devices cfg offLight offSwitch s).1.activation_time = none
    ∧ (emergency_stop cfg offLight offSwitch s).1.activated_devices = ∅
    ∧ (emergency_stop cfg offLight offSwitch s).1.activation_time = none := by
  refine ⟨?_, rfl, rfl, rfl⟩
  intro device
  simp [deactivate_devices, Finset.mem_sdiff, Finset.mem_filter]
  tauto

/-- Bind of a successful `Except` computation reduces to the continuation. -/
theorem except_bind_ok {ε α β : Type} (a : α) (f : α → Except ε β) :
    ((Except.ok a : Except ε α) >>= f) = f a := rfl

/-- Characterization of `postprocess_outputs` on a first tensor with a first
batch: run the row loop on that batch, then NMS. -/
theorem postprocess_outputs_cons (cfg : DetectorCfg) (W H : ℤ)
    (batch0 : List (List ℚ)) (brest : List (List (List ℚ)))
    (trest : List (List (List (List ℚ)))) :
    postprocess_outputs cfg W H ((batch0 :: brest) :: trest)
      = match postprocessRows cfg W H batch0 with
        | .error e => .error e
        | .ok ds => .ok (apply_nms cfg.nms_threshold ds) := by
  show ((postprocessRows cfg W H batch0) >>=
      fun ds => Except.ok (apply_nms cfg.nms_threshold ds)) = _
  cases postprocessRows cfg W H batch0 with
  | error e => rfl
  | ok ds => rfl

/-- Reduction of `detect` on a successful pipeline. -/
theorem detect_ok (cfg : DetectorCfg) (W H : ℤ)
    (outs : List (List (List (List ℚ)))) (ds : List Detection)
    (h : postprocess_outputs cfg W H outs = .ok ds) :
    detect true cfg W H (.ok outs) = ds := by
  have hpipe : (do
      let outputs ← (Except.ok outs : Except String (List (List (List (List ℚ)))))
      postprocess_outputs cfg W H outputs) = Except.ok ds := by
    rw [except_bind_ok, h]
  simp [detect, hpipe]

/-- Reduction of `detect` on a failing postprocessing step. -/
theorem detect_postprocess_err (cfg : DetectorCfg) (W H : ℤ)
    (outs : List (List (List (List ℚ)))) (e : String)
    (h : postprocess_outputs cfg W H outs = .error e) :
    detect true cfg W H (.ok outs) = [] := by
  have hpipe : (do
      let outputs ← (Except.ok outs : Except String (List (List (List (List ℚ)))))
      postprocess_outputs cfg W H outputs) = Except.error e := by
    rw [except_bind_ok, h]
  simp [detect, hpipe]

/-- Claim C5, amended: on top of the claim's postcondition an input-range
hypothesis is needed — the raw objectness and class scores of the model
output must lie in [0,1] (the code multiplies them without clamping, see the
counterexample) and the frame must be at least one pixel in each dimension.
Under those hypotheses every detection returned by `detect` has confidence
equal to the objectness entry times the argmax class score of its source
row, that confidence is at least `min_confidence` and lies in [0,1], and
every box coordinate is clamped into [0, frame dimension minus 1]. -/
theorem C5_detect_postcondition (hailo_ready : Bool) (cfg : DetectorCfg)
    (W H : ℤ) (batch0 : List (List ℚ)) (brest : List (List (List ℚ)))
    (trest : List (List (List (List ℚ))))
    (hW : 1 ≤ W) (hH : 1 ≤ H)
    (hb : ∀ row ∈ batch0, ∀ q ∈ row.drop 4, 0 ≤ q ∧ q ≤ 1) :
    ∀ d ∈ detect hailo_ready cfg W H (.ok ((batch0 :: brest) :: trest)),
      cfg.min_confidence ≤ d.confidence ∧ 0 ≤ d.confidence ∧ d.confidence ≤ 1
      ∧ ((0 : ℚ) ≤ d.x1 ∧ d.x1 ≤ (W : ℚ) - 1) ∧ ((0 : ℚ) ≤ d.x2 ∧ d.x2 ≤ (W : ℚ) - 1)
      ∧ ((0 : ℚ) ≤ d.y1 ∧ d.y1 ≤ (H : ℚ) - 1) ∧ ((0 : ℚ) ≤ d.y2 ∧ d.y2 ≤ (H : ℚ) - 1)
      ∧ ∃ row ∈ batch0,
          d.confidence = row.getD 4 0 * (row.drop 5).getD (argmaxIdx (row.drop 5)) 0 := by
  intro d hd
  cases hailo_ready with
  | false => exact absurd hd (List.not_mem_nil d)
  | true =>
    cases hp : postprocessRows cfg W H batch0 with
    | error e =>
      have hop : postprocess_outputs cfg W H ((batch0 :: brest) :: trest)
          = .error e := by
        rw [postprocess_outputs_cons, hp]
      rw [detect_postprocess_err cfg W H _ e hop] at hd
      exact absurd hd (List.not_mem_nil d)
    | ok ds =>
      have hop : postprocess_outputs cfg W H ((batch0 :: brest) :: trest)
          = .ok (apply_nms cfg.nms_threshold ds) := by
        rw [postprocess_outputs_cons, hp]
      rw [detect_ok cfg W H _ _ hop, apply_nms] at hd
      have hds : d ∈ ds := mem_sortByConfDesc.mp (nmsGo_subset _ _ d hd)
      exact postprocessRows_props cfg W H batch0 ds hW hH hb hp d hds

/-- Claim C5, counterexample.  Nothing in `_postprocess_outputs` clamps the
confidence into [0,1]: a raw candidate row with objectness 3/2 and a single
class score 1 produces a returned detection with confidence 3/2 > 1 (kept,
since 3/2 is above `min_confidence` 0.7). -/
theorem C5_confidence_counterexample :
    detect true ⟨7/10, 45/100, 640, 640⟩ 1920 1080
        (.ok [[[[0, 0, 0, 0, 3/2, 1]]]])
      = [⟨"person", 3/2, 0, 0, 0, 0⟩]
    ∧ ¬ ((3 : ℚ)/2 ≤ 1) := by
  have hrow : postprocessRow ⟨7/10, 45/100, 640, 640⟩ 1920 1080
      [0, 0, 0, 0, 3/2, 1] = .ok (some ⟨"person", 3/2, 0, 0, 0, 0⟩) := by
    rw [postprocessRow]
    rw [if_neg (by norm_num)]
    dsimp only
    rw [show List.drop 5 [0, 0, 0, 0, 3/2, (1:ℚ)] = [1] from rfl]
    rw [if_neg (show ¬ ([(1:ℚ)] = []) from List.cons_ne_nil _ _)]
    rw [show argmaxIdx [(1:ℚ)] = 0 from rfl,
      show ([(1:ℚ)]).getD 0 0 = 1 from rfl,
      show ([0, 0, 0, 0, 3/2, (1:ℚ)]).getD 4 0 = 3/2 from rfl]
    rw [if_pos (by norm_num)]
    rw [show ([0, 0, 0, 0, 3/2, (1:ℚ)]).getD 0 0 = 0 from rfl,
      show ([0, 0, 0, 0, 3/2, (1:ℚ)]).getD 1 0 = 0 from rfl,
      show ([0, 0, 0, 0, 3/2, (1:ℚ)]).getD 2 0 = 0 from rfl,
      show ([0, 0, 0, 0, 3/2, (1:ℚ)]).getD 3 0 = 0 from rfl,
      show className_of 0 = "person" from rfl]
    norm_num [pyInt, clamp]
  have hrows : postprocessRows ⟨7/10, 45/100, 640, 640⟩ 1920 1080
      [[0, 0, 0, 0, 3/2, 1]] = .ok [⟨"person", 3/2, 0, 0, 0, 0⟩] := by
    rw [postprocessRows, hrow, postprocessRows]
    rfl
  have hnms : apply_nms (45/100) [(⟨"person", 3/2, 0, 0, 0, 0⟩ : Detection)]
      = [⟨"person", 3/2, 0, 0, 0, 0⟩] := by
    rw [apply_nms, sortByConfDesc, sortByConfDesc, insertByConfDesc]
    simp [nmsGo]
  refine ⟨?_, by norm_num⟩
  apply detect_ok
  rw [postprocess_outputs_cons, hrows]
  dsimp only
  rw [hnms]

/-- Witness for C5 (amended): a well-formed candidate row
[320, 320, 100, 80, 0.9, 0.1, 0.9] in a 1920x1080 frame with 640x640 model
input satisfies the hypotheses; the returned detection has confidence
0.9 times 0.9 = 0.81 and box [810, 472, 1110, 607], and the theorem applied
to it yields the claimed bounds for that detection. -/
theorem C5_detect_postcondition_witness :
    (7 : ℚ)/10 ≤ 81/100 ∧ (0 : ℚ) ≤ 81/100 ∧ (81 : ℚ)/100 ≤ 1
    ∧ (0 : ℚ) ≤ 810 ∧ (810 : ℚ) ≤ 1920 - 1 ∧ (0 : ℚ) ≤ 472 ∧ (472 : ℚ) ≤ 1080 - 1 := by
  have hrow : postprocessRow ⟨7/10, 45/100, 640, 640⟩ 1920 1080
      [320, 320, 100, 80, 9/10, 1/10, 9/10]
      = .ok (some ⟨"bicycle", 81/100, 810, 472, 1110, 607⟩) := by
    rw [postprocessRow]
    rw [if_neg (by norm_num)]
    dsimp only
    rw [show List.drop 5 [320, 320, 100, 80, 9/10, 1/10, (9:ℚ)/10]
        = [1/10, 9/10] from rfl]
    rw [if_neg (show ¬ ([1/10, (9:ℚ)/10] = []) from List.cons_ne_nil _ _)]
    rw [show argmaxIdx [1/10, (9:ℚ)/10] = 1 by
        rw [argmaxIdx]
        rw [if_pos (by rw [listMax]; norm_num)]
        rw [argmaxIdx],
      show ([1/10, (9:ℚ)/10]).getD 1 0 = 9/10 from rfl,
      show ([320, 320, 100, 80, 9/10, 1/10, (9:ℚ)/10]).getD 4 0 = 9/10 from rfl]
    rw [if_pos (by norm_num)]
    rw [show ([320, 320, 100, 80, 9/10, 1/10, (9:ℚ)/10]).getD 0 0 = 320 from rfl,
      show ([320, 320, 100, 80, 9/10, 1/10, (9:ℚ)/10]).getD 1 0 = 320 from rfl,
      show ([320, 320, 100, 80, 9/10, 1/10, (9:ℚ)/10]).getD 2 0 = 100 from rfl,
      show ([320, 320, 100, 80, 9/10, 1/10, (9:ℚ)/10]).getD 3 0 = 80 from rfl,
      show className_of 1 = "bicycle" from rfl]
    norm_num [pyInt, clamp]
  have hrows : postprocessRows ⟨7/10, 45/100, 640, 640⟩ 1920 1080
      [[320, 320, 100, 80, 9/10, 1/10, 9/10]]
      = .ok [⟨"bicycle", 81/100, 810, 472, 1110, 607⟩] := by
    rw [postprocessRows, hrow, postprocessRows]
    rfl
  have hnms : apply_nms (45/100)
      [(⟨"bicycle", 81/100, 810, 472, 1110, 607⟩ : Detection)]
      = [⟨"bicycle", 81/100, 810, 472, 1110, 607⟩] := by
    rw [apply_nms, sortByConfDesc, sortByConfDesc, insertByConfDesc]
    simp [nmsGo]
  have hdet : detect true ⟨7/10, 45/100, 640, 640⟩ 1920 1080
      (.ok [[[[320, 320, 100, 80, 9/10, 1/10, 9/10]]]])
      = [⟨"bicycle", 81/100, 810, 472, 1110, 607⟩] := by
    apply detect_ok
    rw [postprocess_outputs_cons, hrows]
    dsimp only
    rw [hnms]
  have h := C5_detect_postcondition true ⟨7/10, 45/100, 640, 640⟩ 1920 1080
    [[320, 320, 100, 80, 9/10, 1/10, 9/10]] [] []
    (by norm_num) (by norm_num)
    (by
      intro row hrowm q hq
      rw [List.mem_singleton] at hrowm
      subst hrowm
      rw [show List.drop 4 [320, 320, 100, 80, 9/10, 1/10, (9:ℚ)/10]
          = [9/10, 1/10, 9/10] from rfl] at hq
      simp only [List.mem_cons, List.not_mem_nil, or_false] at hq
      rcases hq with rfl | rfl | rfl <;> norm_num)
    ⟨"bicycle", 81/100, 810, 472, 1110, 607⟩
    (by rw [hdet]; exact List.mem_singleton.mpr rfl)
  exact ⟨h.1, h.2.1, h.2.2.1, h.2.2.2.1.1, h.2.2.2.1.2,
    h.2.2.2.2.2.1.1, h.2.2.2.2.2.1.2⟩

end VisionAI
